import Mathlib

/-!
Shallow embedding of the `@oslojs/otp` OTP library (files `src/hotp.ts` and
`src/totp.ts`).

Modelling conventions:
* Byte sequences (`Uint8Array`) are `List Nat`, each element intended < 256.
* JS `bigint` counters are `Int`; the 8-byte big-endian encoding keeps the
  low 64 bits, matching `bigEndian.putUint64`.
* JS strings (passwords, OTP candidates) are `List Nat` of character codes;
  the generated passwords are ASCII digits, for which UTF-16 length and the
  UTF-8 byte encoding used by `TextEncoder`/`constantTimeEqual` coincide with
  the code-point list, and `constantTimeEqual` on the encodings decides
  string equality.
* The external HMAC primitive (`hmac(SHA1, key, msg)`) is an explicit
  function parameter `hmacF : List Nat → List Nat → List Nat`; it is an
  out-of-scope collaborator contracted to return a fixed 20-byte digest.
* Thrown `TypeError`/`RangeError` exceptions are modelled with
  `Except String`, the string being the exception message.
* The ambient clock `Date.now()` is threaded as an explicit `nowMillis : Int`
  parameter; the JS `Math.floor` of a quotient is modelled as exact floor
  division `Int.fdiv` (exact-integer semantics of the time-step computation).
-/

namespace Otp

/-- Decimal digit accumulator: the digit-extraction loop underlying JS
`Number.prototype.toString()` for a non-negative integer, with a structural
fuel bound on the recursion depth (any `fuel ≥ n` is exact, since the value
shrinks by a factor of 10 each step). -/
def decDigitsAux : Nat → Nat → List Nat → List Nat
  | 0, _, acc => acc
  | fuel + 1, n, acc =>
    if n = 0 then acc else decDigitsAux fuel (n / 10) (n % 10 :: acc)

/-- The decimal digits of `n`, most significant first (`[0]` for zero):
the digit sequence of JS `n.toString()`. -/
def decimalRepr (n : Nat) : List Nat :=
  if n = 0 then [0] else decDigitsAux n n []

/-- Character codes of JS `n.toString()` (ASCII `'0'` = 48). -/
def toDecimalString (n : Nat) : List Nat :=
  (decimalRepr n).map (fun d => 48 + d)

/-- JS `String.prototype.padStart(len, c)`: left-pad to length `len`. -/
def padStart (s : List Nat) (len : Nat) (c : Nat) : List Nat :=
  List.replicate (len - s.length) c ++ s

/-- `bigEndian.putUint64(counterBytes, counter, 0)`: the 8-byte big-endian
encoding of the counter's low 64 bits. -/
def encodeCounterBE (counter : Int) : List Nat :=
  let c := (counter % (2 ^ 64 : Int)).toNat
  (List.range 8).map (fun i => c / 2 ^ (8 * (7 - i)) % 256)

/-- Dynamic truncation (`src/hotp.ts` lines 47-55): offset is the low nibble
of the digest's last byte, then 4 bytes at that offset are read big-endian
with the top bit of the first byte cleared (`truncated[0] &= 0x7f`). -/
def dynamicTruncate (HS : List Nat) : Nat :=
  let offset := HS.getD (HS.length - 1) 0 &&& 0x0f
  let b0 := HS.getD offset 0 &&& 0x7f
  ((b0 * 256 + HS.getD (offset + 1) 0) * 256 + HS.getD (offset + 2) 0) * 256
    + HS.getD (offset + 3) 0

/-- The password computed by `generateHOTP` after its digit validation:
HMAC digest of the encoded counter, dynamic truncation, reduction mod
`10 ^ digits`, decimal rendering, left-padded with `'0'` (code 48). -/
def hotpPassword (hmacF : List Nat → List Nat → List Nat) (key : List Nat)
    (counter : Int) (digits : Nat) : List Nat :=
  let counterBytes := encodeCounterBE counter
  let HS := hmacF key counterBytes
  let SNum := dynamicTruncate HS
  let D := SNum % 10 ^ digits
  padStart (toDecimalString D) digits 48

/-- `generateHOTP` (`src/hotp.ts` lines 34-60): validates
`digits < 6 || digits > 8` (throws `TypeError`), otherwise produces the
password. -/
def generateHOTP (hmacF : List Nat → List Nat → List Nat) (key : List Nat)
    (counter : Int) (digits : Nat) : Except String (List Nat) :=
  if digits < 6 ∨ 8 < digits then
    .error "Digits must be between 6 and 8"
  else
    .ok (hotpPassword hmacF key counter digits)

/-- `verifyHOTP` (`src/hotp.ts` lines 75-97): validates digits (throws),
rejects a candidate of the wrong length, otherwise compares the candidate
with the freshly generated password (`constantTimeEqual` on the UTF-8
encodings decides equality of the strings). -/
def verifyHOTP (hmacF : List Nat → List Nat → List Nat) (key : List Nat)
    (counter : Int) (digits : Nat) (otp : List Nat) : Except String Bool :=
  if digits < 6 ∨ 8 < digits then
    .error "Digits must be between 6 and 8"
  else if otp.length ≠ digits then
    .ok false
  else
    .ok (decide (otp = hotpPassword hmacF key counter digits))

/-- The TOTP time-step counter
`BigInt(Math.floor(nowMillis / (intervalInSeconds * 1000)))` for a nonzero
interval, modelled as exact floor division. -/
def timeStepCounter (nowMillis intervalInSeconds : Int) : Int :=
  Int.fdiv nowMillis (intervalInSeconds * 1000)

/-- `generateTOTP` (`src/totp.ts` lines 33-49): validates digits (throws
`TypeError`), derives the time-step counter from the clock, and delegates
to `generateHOTP`. A zero interval makes the JS quotient infinite (or NaN)
and the `BigInt` conversion throw a `RangeError`, modelled uniformly with
the infinity message. There is no validation of the interval itself. -/
def generateTOTP (hmacF : List Nat → List Nat → List Nat) (key : List Nat)
    (nowMillis intervalInSeconds : Int) (digits : Nat) :
    Except String (List Nat) :=
  if digits < 6 ∨ 8 < digits then
    .error "Digits must be between 6 and 8"
  else if intervalInSeconds = 0 then
    .error "RangeError: Cannot convert Infinity to a BigInt"
  else
    generateHOTP hmacF key (timeStepCounter nowMillis intervalInSeconds) digits

/-- `verifyTOTP` (`src/totp.ts` lines 65-78): derives the time-step counter
from the clock and delegates to `verifyHOTP` (which performs the digit
validation). No validation of the interval; a zero interval throws the
`BigInt` `RangeError` before the digit check. -/
def verifyTOTP (hmacF : List Nat → List Nat → List Nat) (key : List Nat)
    (nowMillis intervalInSeconds : Int) (digits : Nat) (otp : List Nat) :
    Except String Bool :=
  if intervalInSeconds = 0 then
    .error "RangeError: Cannot convert Infinity to a BigInt"
  else
    verifyHOTP hmacF key (timeStepCounter nowMillis intervalInSeconds) digits otp

/-- First counter checked by `verifyTOTPWithGracePeriod`
(`src/totp.ts` lines 113-115):
`BigInt(Math.floor((now - grace*1000) / (interval*1000)))`. -/
def graceWindowStart (nowMillis grace intervalInSeconds : Int) : Int :=
  Int.fdiv (nowMillis - grace * 1000) (intervalInSeconds * 1000)

/-- `maxCounterInclusive` of `verifyTOTPWithGracePeriod`
(`src/totp.ts` lines 118-120):
`BigInt(Math.floor((now + grace*1000) / (interval*1000)))`. -/
def graceWindowEnd (nowMillis grace intervalInSeconds : Int) : Int :=
  Int.fdiv (nowMillis + grace * 1000) (intervalInSeconds * 1000)

/-- Number of counters in the inclusive window
`[graceWindowStart, graceWindowEnd]`: the number of loop iterations
`verifyTOTPWithGracePeriod` performs when no candidate matches. -/
def graceWindowSize (nowMillis grace intervalInSeconds : Int) : Nat :=
  (graceWindowEnd nowMillis grace intervalInSeconds + 1
    - graceWindowStart nowMillis grace intervalInSeconds).toNat

/-- The `while (counter <= maxCounterInclusive)` loop of
`verifyTOTPWithGracePeriod` (`src/totp.ts` lines 123-130): check each
counter in turn, return `true` on the first match, propagate a thrown
error, return `false` after the last counter. -/
def graceLoop (hmacF : List Nat → List Nat → List Nat) (key : List Nat)
    (digits : Nat) (otp : List Nat) (counter maxCounterInclusive : Int) :
    Except String Bool :=
  if counter ≤ maxCounterInclusive then
    match verifyHOTP hmacF key counter digits otp with
    | .error e => .error e
    | .ok true => .ok true
    | .ok false =>
      graceLoop hmacF key digits otp (counter + 1) maxCounterInclusive
  else
    .ok false
  termination_by (maxCounterInclusive + 1 - counter).toNat
  decreasing_by omega

/-- `verifyTOTPWithGracePeriod` (`src/totp.ts` lines 97-134): validates
`gracePeriodInSeconds >= 0` (throws `TypeError`), computes the window
bounds from the clock, and runs the while loop over every counter in the
inclusive window. -/
def verifyTOTPWithGracePeriod (hmacF : List Nat → List Nat → List Nat)
    (key : List Nat) (nowMillis intervalInSeconds : Int) (digits : Nat)
    (otp : List Nat) (grace : Int) : Except String Bool :=
  if grace < 0 then
    .error "Grace period must be a positive number"
  else if intervalInSeconds = 0 then
    .error "RangeError: Cannot convert Infinity to a BigInt"
  else
    graceLoop hmacF key digits otp
      (graceWindowStart nowMillis grace intervalInSeconds)
      (graceWindowEnd nowMillis grace intervalInSeconds)

/-- Modelled from the spec (§4.6), for comparison with the implementation:
the three-point grace verification the spec describes — validate the grace
period, check `counterNow` first and return `true` immediately on a match,
then check `counterBefore` when it differs from `counterNow`, then
`counterAfter` when it differs from `counterNow`, and return `false` when
none of the three match. -/
def threePointVerify (hmacF : List Nat → List Nat → List Nat)
    (key : List Nat) (nowMillis intervalInSeconds : Int) (digits : Nat)
    (otp : List Nat) (grace : Int) : Except String Bool :=
  if grace < 0 then
    .error "Grace period must be a positive number"
  else
    let counterNow := timeStepCounter nowMillis intervalInSeconds
    let counterBefore := graceWindowStart nowMillis grace intervalInSeconds
    let counterAfter := graceWindowEnd nowMillis grace intervalInSeconds
    match verifyHOTP hmacF key counterNow digits otp with
    | .error e => .error e
    | .ok true => .ok true
    | .ok false =>
      match (if counterBefore ≠ counterNow then
          verifyHOTP hmacF key counterBefore digits otp else .ok false) with
      | .error e => .error e
      | .ok true => .ok true
      | .ok false =>
        (if counterAfter ≠ counterNow then
          verifyHOTP hmacF key counterAfter digits otp else .ok false)

/-- A concrete instance of the external HMAC collaborator used for closed
evaluations: a 20-byte digest whose fourth byte is the low byte of the
message (for an encoded counter, the counter's lowest byte), so that
distinct small counters yield distinct passwords. -/
def tHmac (_key msg : List Nat) : List Nat :=
  [0, 0, 0, msg.getD 7 0] ++ List.replicate 16 0

theorem decDigitsAux_mem_lt_ten (fuel : Nat) :
    ∀ n acc, (∀ x ∈ acc, x < 10) → ∀ x ∈ decDigitsAux fuel n acc, x < 10 := by
  induction fuel with
  | zero => intro n acc hacc; simpa [decDigitsAux] using hacc
  | succ fuel ih =>
    intro n acc hacc
    rw [decDigitsAux]
    split
    · exact hacc
    · refine ih (n / 10) (n % 10 :: acc) ?_
      intro x hx
      rcases List.mem_cons.mp hx with h | h
      · subst h; exact Nat.mod_lt _ (by omega)
      · exact hacc x h

theorem decDigitsAux_length_le (fuel : Nat) :
    ∀ d n acc, n < 10 ^ d →
      (decDigitsAux fuel n acc).length ≤ d + acc.length := by
  induction fuel with
  | zero => intro d n acc _; simp [decDigitsAux]
  | succ fuel ih =>
    intro d n acc hn
    rw [decDigitsAux]
    split
    · omega
    · match d with
      | 0 => omega
      | d + 1 =>
        have h1 : n / 10 < 10 ^ d := by
          rw [Nat.div_lt_iff_lt_mul (by omega)]
          calc n < 10 ^ (d + 1) := hn
          _ = 10 ^ d * 10 := by ring
        have h2 := ih d (n / 10) (n % 10 :: acc) h1
        simp only [List.length_cons] at h2
        omega

theorem decimalRepr_mem_lt_ten (n : Nat) : ∀ x ∈ decimalRepr n, x < 10 := by
  unfold decimalRepr
  split
  · intro x hx; simp at hx; omega
  · exact decDigitsAux_mem_lt_ten n n [] (by simp)

theorem decimalRepr_length_le (n d : Nat) (hd : 0 < d) (hn : n < 10 ^ d) :
    (decimalRepr n).length ≤ d := by
  unfold decimalRepr
  split
  · simpa using hd
  · simpa using decDigitsAux_length_le n d n [] hn

theorem padStart_length (s : List Nat) (len c : Nat) (h : s.length ≤ len) :
    (padStart s len c).length = len := by
  simp [padStart]
  omega

theorem hotpPassword_length (hmacF : List Nat → List Nat → List Nat)
    (key : List Nat) (counter : Int) (digits : Nat) (hd : 0 < digits) :
    (hotpPassword hmacF key counter digits).length = digits := by
  unfold hotpPassword
  apply padStart_length
  simp only [toDecimalString, List.length_map]
  exact decimalRepr_length_le _ _ hd
    (Nat.mod_lt _ (Nat.pos_pow_of_pos _ (by omega)))

theorem hotpPassword_mem_digit (hmacF : List Nat → List Nat → List Nat)
    (key : List Nat) (counter : Int) (digits : Nat) :
    ∀ b ∈ hotpPassword hmacF key counter digits, 48 ≤ b ∧ b ≤ 57 := by
  intro b hb
  unfold hotpPassword padStart at hb
  rcases List.mem_append.mp hb with h | h
  · have := List.eq_of_mem_replicate h
    omega
  · simp only [toDecimalString, List.mem_map] at h
    obtain ⟨x, hx, rfl⟩ := h
    have := decimalRepr_mem_lt_ten _ x hx
    omega

theorem and_fifteen_eq_mod (n : Nat) : n &&& 15 = n % 16 := by
  simpa using Nat.and_pow_two_sub_one_eq_mod n 4

theorem and_onetwentyseven_eq_mod (n : Nat) : n &&& 127 = n % 128 := by
  simpa using Nat.and_pow_two_sub_one_eq_mod n 7

/-- C7: for every key, counter and digits in [6,8], `generateHOTP` succeeds
and returns a string of length exactly `digits` whose characters are all
decimal digits `'0'`-`'9'` (codes 48-57), the decimal value left-padded
with `'0'`. -/
theorem generateHOTP_length_invariant (hmacF : List Nat → List Nat → List Nat)
    (key : List Nat) (counter : Int) (digits : Nat)
    (h6 : 6 ≤ digits) (h8 : digits ≤ 8) :
    generateHOTP hmacF key counter digits =
      .ok (hotpPassword hmacF key counter digits) ∧
    (hotpPassword hmacF key counter digits).length = digits ∧
    ∀ b ∈ hotpPassword hmacF key counter digits, 48 ≤ b ∧ b ≤ 57 := by
  refine ⟨?_, hotpPassword_length hmacF key counter digits (by omega),
    hotpPassword_mem_digit hmacF key counter digits⟩
  rw [generateHOTP, if_neg (by omega)]

theorem generateHOTP_length_invariant_witness :
    generateHOTP tHmac [] 2 6 = .ok (hotpPassword tHmac [] 2 6) ∧
    (hotpPassword tHmac [] 2 6).length = 6 ∧
    ∀ b ∈ hotpPassword tHmac [] 2 6, 48 ≤ b ∧ b ≤ 57 :=
  generateHOTP_length_invariant tHmac [] 2 6 (by omega) (by omega)

/-- C2: for every key, counter and digits in [6,8], verifying the freshly
generated password succeeds: if `generateHOTP` returns `pw` then
`verifyHOTP` accepts `pw`. -/
theorem verifyHOTP_generateHOTP (hmacF : List Nat → List Nat → List Nat)
    (key : List Nat) (counter : Int) (digits : Nat)
    (h6 : 6 ≤ digits) (h8 : digits ≤ 8) (pw : List Nat)
    (hpw : generateHOTP hmacF key counter digits = .ok pw) :
    verifyHOTP hmacF key counter digits pw = .ok true := by
  rw [generateHOTP, if_neg (by omega)] at hpw
  injection hpw with hpw
  subst hpw
  rw [verifyHOTP, if_neg (by omega),
    if_neg (by simp [hotpPassword_length hmacF key counter digits (by omega)])]
  simp

theorem verifyHOTP_generateHOTP_witness :
    verifyHOTP tHmac [] 2 6 (hotpPassword tHmac [] 2 6) = .ok true :=
  verifyHOTP_generateHOTP tHmac [] 2 6 (by omega) (by omega)
    (hotpPassword tHmac [] 2 6) (by rfl)

/-- C5: for every digits outside [6,8], both `generateHOTP` and `verifyHOTP`
fail with the `TypeError` message "Digits must be between 6 and 8", and the
failing result is independent of the HMAC primitive, the key, the counter
and the candidate (nothing secret is touched on this path). -/
theorem hotp_invalid_digit_count (hmacF hmacF' : List Nat → List Nat → List Nat)
    (key key' : List Nat) (counter counter' : Int) (digits : Nat)
    (otp otp' : List Nat) (h : digits < 6 ∨ 8 < digits) :
    generateHOTP hmacF key counter digits = .error "Digits must be between 6 and 8" ∧
    verifyHOTP hmacF key counter digits otp = .error "Digits must be between 6 and 8" ∧
    generateHOTP hmacF key counter digits = generateHOTP hmacF' key' counter' digits ∧
    verifyHOTP hmacF key counter digits otp = verifyHOTP hmacF' key' counter' digits otp' := by
  rw [generateHOTP, generateHOTP, verifyHOTP, verifyHOTP,
    if_pos h, if_pos h, if_pos h, if_pos h]
  exact ⟨rfl, rfl, rfl, rfl⟩

theorem hotp_invalid_digit_count_witness :
    generateHOTP tHmac [] 0 5 = .error "Digits must be between 6 and 8" ∧
    verifyHOTP tHmac [] 0 5 [] = .error "Digits must be between 6 and 8" ∧
    generateHOTP tHmac [] 0 5 = generateHOTP (fun _ _ => []) [1] 7 5 ∧
    verifyHOTP tHmac [] 0 5 [] = verifyHOTP (fun _ _ => []) [1] 7 5 [48] :=
  hotp_invalid_digit_count tHmac (fun _ _ => []) [] [1] 0 7 5 [] [48]
    (by omega)

/-- C6: for digits in [6,8], `verifyHOTP` returns `false` (it does not
throw) on a candidate whose length differs from `digits`; more generally,
on every candidate it returns some boolean, and on every candidate other
than the expected password it returns `false`. -/
theorem verifyHOTP_wrong_candidate (hmacF : List Nat → List Nat → List Nat)
    (key : List Nat) (counter : Int) (digits : Nat) (otp : List Nat)
    (h6 : 6 ≤ digits) (h8 : digits ≤ 8) :
    (otp.length ≠ digits → verifyHOTP hmacF key counter digits otp = .ok false) ∧
    (∃ b, verifyHOTP hmacF key counter digits otp = .ok b) ∧
    (otp ≠ hotpPassword hmacF key counter digits →
      verifyHOTP hmacF key counter digits otp = .ok false) := by
  rw [verifyHOTP, if_neg (by omega)]
  by_cases hlen : otp.length = digits
  · rw [if_neg (by omega)]
    refine ⟨fun h => absurd hlen h, ⟨_, rfl⟩, fun hne => ?_⟩
    simp [hne]
  · rw [if_pos hlen]
    exact ⟨fun _ => rfl, ⟨false, rfl⟩, fun _ => rfl⟩

theorem verifyHOTP_wrong_candidate_witness :
    (([] : List Nat).length ≠ 6 → verifyHOTP tHmac [] 2 6 [] = .ok false) ∧
    (∃ b, verifyHOTP tHmac [] 2 6 [] = .ok b) ∧
    (([] : List Nat) ≠ hotpPassword tHmac [] 2 6 →
      verifyHOTP tHmac [] 2 6 [] = .ok false) :=
  verifyHOTP_wrong_candidate tHmac [] 2 6 [] (by omega) (by omega)

/-- C3: on a digest of at least 20 bytes (each a byte value), dynamic
truncation uses the low nibble of the final byte as the offset (at most 15,
so the 4-byte read stays in bounds), the result is the big-endian 32-bit
read at that offset reduced mod `2 ^ 31` (bit 31 forced to zero), and the
result is below `2 ^ 31`. -/
theorem dynamicTruncate_spec (HS : List Nat) (h20 : 20 ≤ HS.length)
    (hb : ∀ b ∈ HS, b < 256) :
    HS.getD (HS.length - 1) 0 &&& 0x0f ≤ 15 ∧
    (HS.getD (HS.length - 1) 0 &&& 0x0f) + 4 ≤ HS.length ∧
    dynamicTruncate HS =
      (((HS.getD (HS.getD (HS.length - 1) 0 &&& 0x0f) 0 * 256
          + HS.getD ((HS.getD (HS.length - 1) 0 &&& 0x0f) + 1) 0) * 256
          + HS.getD ((HS.getD (HS.length - 1) 0 &&& 0x0f) + 2) 0) * 256
          + HS.getD ((HS.getD (HS.length - 1) 0 &&& 0x0f) + 3) 0) % 2 ^ 31 ∧
    dynamicTruncate HS < 2 ^ 31 := by
  have hoff : HS.getD (HS.length - 1) 0 &&& 0x0f ≤ 15 := by
    rw [and_fifteen_eq_mod]
    exact Nat.le_of_lt_succ (Nat.mod_lt _ (by omega))
  set off := HS.getD (HS.length - 1) 0 &&& 0x0f with hoffdef
  have hbD : ∀ i, HS.getD i 0 < 256 := by
    intro i
    rcases Nat.lt_or_ge i HS.length with h | h
    · rw [List.getD_eq_getElem HS 0 h]
      exact hb _ (List.getElem_mem h)
    · rw [List.getD_eq_default _ _ h]; omega
  have hmask : HS.getD off 0 &&& 127 = HS.getD off 0 % 128 :=
    and_onetwentyseven_eq_mod _
  refine ⟨hoff, by omega, ?_, ?_⟩
  · rw [dynamicTruncate]
    simp only [← hoffdef, hmask]
    have h0 := hbD off
    have h1 := hbD (off + 1)
    have h2 := hbD (off + 2)
    have h3 := hbD (off + 3)
    omega
  · rw [dynamicTruncate]
    simp only [← hoffdef, hmask]
    have h0 := hbD off
    have h1 := hbD (off + 1)
    have h2 := hbD (off + 2)
    have h3 := hbD (off + 3)
    omega

theorem dynamicTruncate_spec_witness :
    dynamicTruncate (List.replicate 20 255) < 2 ^ 31 :=
  (dynamicTruncate_spec (List.replicate 20 255) (by decide)
    (fun _ hb => by have := List.eq_of_mem_replicate hb; omega)).2.2.2

theorem verifyHOTP_exists_ok (hmacF : List Nat → List Nat → List Nat)
    (key : List Nat) (counter : Int) (digits : Nat) (otp : List Nat)
    (h6 : 6 ≤ digits) (h8 : digits ≤ 8) :
    ∃ b, verifyHOTP hmacF key counter digits otp = .ok b := by
  rw [verifyHOTP, if_neg (by omega)]
  by_cases h : otp.length ≠ digits
  · exact ⟨false, by rw [if_pos h]⟩
  · exact ⟨_, by rw [if_neg h]⟩

theorem graceLoop_of_gt (hmacF : List Nat → List Nat → List Nat)
    (key : List Nat) (digits : Nat) (otp : List Nat) (c m : Int) (h : m < c) :
    graceLoop hmacF key digits otp c m = .ok false := by
  rw [graceLoop, if_neg (by omega)]

theorem graceLoop_step (hmacF : List Nat → List Nat → List Nat)
    (key : List Nat) (digits : Nat) (otp : List Nat) (c m : Int) (h : c ≤ m) :
    graceLoop hmacF key digits otp c m =
      match verifyHOTP hmacF key c digits otp with
      | .error e => .error e
      | .ok true => .ok true
      | .ok false => graceLoop hmacF key digits otp (c + 1) m := by
  rw [graceLoop, if_pos h]

theorem graceLoop_self (hmacF : List Nat → List Nat → List Nat)
    (key : List Nat) (digits : Nat) (otp : List Nat) (c : Int) :
    graceLoop hmacF key digits otp c c = verifyHOTP hmacF key c digits otp := by
  rw [graceLoop_step _ _ _ _ _ _ (le_refl c)]
  rcases hr : verifyHOTP hmacF key c digits otp with e | b
  · rfl
  · cases b
    · exact graceLoop_of_gt _ _ _ _ _ _ (by omega)
    · rfl

theorem graceLoop_ok_true_iff (hmacF : List Nat → List Nat → List Nat)
    (key : List Nat) (digits : Nat) (otp : List Nat)
    (h6 : 6 ≤ digits) (h8 : digits ≤ 8) (c m : Int) :
    graceLoop hmacF key digits otp c m = .ok true ↔
      ∃ k, c ≤ k ∧ k ≤ m ∧ verifyHOTP hmacF key k digits otp = .ok true := by
  generalize hn : (m + 1 - c).toNat = n
  induction n generalizing c with
  | zero =>
    rw [graceLoop_of_gt _ _ _ _ _ _ (by omega)]
    constructor
    · intro h; exact absurd h (by simp)
    · rintro ⟨k, hk1, hk2, -⟩; omega
  | succ n ih =>
    have hc : c ≤ m := by omega
    rw [graceLoop_step _ _ _ _ _ _ hc]
    obtain ⟨b, hb⟩ := verifyHOTP_exists_ok hmacF key c digits otp h6 h8
    rw [hb]
    cases b with
    | true =>
      show (Except.ok true : Except String Bool) = .ok true ↔ _
      exact ⟨fun _ => ⟨c, le_refl c, hc, hb⟩, fun _ => rfl⟩
    | false =>
      show graceLoop hmacF key digits otp (c + 1) m = .ok true ↔ _
      rw [ih (c + 1) (by omega)]
      constructor
      · rintro ⟨k, hk1, hk2, hk3⟩
        exact ⟨k, by omega, hk2, hk3⟩
      · rintro ⟨k, hk1, hk2, hk3⟩
        refine ⟨k, ?_, hk2, hk3⟩
        rcases eq_or_lt_of_le hk1 with rfl | h
        · rw [hb] at hk3; exact absurd hk3 (by simp)
        · omega

theorem graceLoop_exists_ok (hmacF : List Nat → List Nat → List Nat)
    (key : List Nat) (digits : Nat) (otp : List Nat)
    (h6 : 6 ≤ digits) (h8 : digits ≤ 8) (c m : Int) :
    ∃ b, graceLoop hmacF key digits otp c m = .ok b := by
  generalize hn : (m + 1 - c).toNat = n
  induction n generalizing c with
  | zero => exact ⟨false, graceLoop_of_gt _ _ _ _ _ _ (by omega)⟩
  | succ n ih =>
    rw [graceLoop_step _ _ _ _ _ _ (by omega)]
    obtain ⟨b, hb⟩ := verifyHOTP_exists_ok hmacF key c digits otp h6 h8
    rw [hb]
    cases b with
    | true => exact ⟨true, rfl⟩
    | false => exact ih (c + 1) (by omega)

theorem graceLoop_ok_false_iff (hmacF : List Nat → List Nat → List Nat)
    (key : List Nat) (digits : Nat) (otp : List Nat)
    (h6 : 6 ≤ digits) (h8 : digits ≤ 8) (c m : Int) :
    graceLoop hmacF key digits otp c m = .ok false ↔
      ∀ k, c ≤ k → k ≤ m → verifyHOTP hmacF key k digits otp = .ok false := by
  obtain ⟨b, hb⟩ := graceLoop_exists_ok hmacF key digits otp h6 h8 c m
  constructor
  · intro hres k hk1 hk2
    obtain ⟨bk, hbk⟩ := verifyHOTP_exists_ok hmacF key k digits otp h6 h8
    cases bk with
    | false => exact hbk
    | true =>
      exfalso
      have htrue : graceLoop hmacF key digits otp c m = .ok true :=
        (graceLoop_ok_true_iff hmacF key digits otp h6 h8 c m).mpr
          ⟨k, hk1, hk2, hbk⟩
      rw [hres] at htrue
      exact absurd htrue (by simp)
  · intro hall
    cases b with
    | false => exact hb
    | true =>
      obtain ⟨k, hk1, hk2, hk3⟩ :=
        (graceLoop_ok_true_iff hmacF key digits otp h6 h8 c m).mp hb
      rw [hall k hk1 hk2] at hk3
      exact absurd hk3 (by simp)

theorem graceWindow_start_le_end (now grace interval : Int)
    (hg : 0 ≤ grace) (hi : 0 < interval) :
    graceWindowStart now grace interval ≤ graceWindowEnd now grace interval := by
  have h1000 : (0 : Int) < interval * 1000 := by omega
  rw [graceWindowStart, graceWindowEnd, Int.fdiv_eq_ediv _ (le_of_lt h1000),
    Int.fdiv_eq_ediv _ (le_of_lt h1000)]
  exact Int.ediv_le_ediv h1000 (by omega)

theorem graceWindowSize_grows (now interval : Int) (hi : 0 < interval)
    (N : Nat) : N ≤ graceWindowSize now (N * interval) interval := by
  have h1000 : (0 : Int) < interval * 1000 := by omega
  have hne : (interval * 1000 : Int) ≠ 0 := by omega
  have hE : graceWindowEnd now (N * interval) interval
      = now / (interval * 1000) + N := by
    rw [graceWindowEnd, Int.fdiv_eq_ediv _ (le_of_lt h1000),
      show now + (N : Int) * interval * 1000
        = now + (N : Int) * (interval * 1000) by ring,
      Int.add_mul_ediv_right _ _ hne]
  have hS : graceWindowStart now (N * interval) interval
      = now / (interval * 1000) - N := by
    rw [graceWindowStart, Int.fdiv_eq_ediv _ (le_of_lt h1000),
      show now - (N : Int) * interval * 1000
        = now + (-(N : Int)) * (interval * 1000) by ring,
      Int.add_mul_ediv_right _ _ hne]
    ring
  rw [graceWindowSize, hE, hS]
  omega

/-- C8: at any one wall-clock instant, `verifyTOTPWithGracePeriod` with
`gracePeriodInSeconds = 0` returns exactly the result of `verifyTOTP`, for
every HMAC, key, interval, digit count and candidate (a single-counter
window whose only counter is the current one). -/
theorem verifyTOTPWithGracePeriod_grace_zero
    (hmacF : List Nat → List Nat → List Nat) (key : List Nat)
    (now interval : Int) (digits : Nat) (otp : List Nat) :
    verifyTOTPWithGracePeriod hmacF key now interval digits otp 0 =
      verifyTOTP hmacF key now interval digits otp := by
  rw [verifyTOTPWithGracePeriod, if_neg (by omega), verifyTOTP]
  by_cases hi : interval = 0
  · rw [if_pos hi, if_pos hi]
  · rw [if_neg hi, if_neg hi]
    have hs : graceWindowStart now 0 interval = timeStepCounter now interval := by
      rw [graceWindowStart, timeStepCounter]
      norm_num
    have he : graceWindowEnd now 0 interval = timeStepCounter now interval := by
      rw [graceWindowEnd, timeStepCounter]
      norm_num
    rw [hs, he, graceLoop_self]

/-- C10: for grace ≥ 0 and period > 0 and valid digits, the grace-period
verifier checks exactly the inclusive counter window
`[floor((now - grace*1000) / (period*1000)), floor((now + grace*1000) / (period*1000))]`:
the window is never empty, the verifier accepts iff some counter in the
window verifies, rejects iff every counter in the window fails, and the
window size is unbounded in the grace period (grace `N * period` yields at
least `N` iterations; no cap is enforced). -/
theorem verifyTOTPWithGracePeriod_enumeration
    (hmacF : List Nat → List Nat → List Nat) (key : List Nat)
    (now interval grace : Int) (digits : Nat) (otp : List Nat)
    (hg : 0 ≤ grace) (hi : 0 < interval)
    (h6 : 6 ≤ digits) (h8 : digits ≤ 8) :
    graceWindowStart now grace interval ≤ graceWindowEnd now grace interval ∧
    (verifyTOTPWithGracePeriod hmacF key now interval digits otp grace = .ok true ↔
      ∃ k, graceWindowStart now grace interval ≤ k ∧
        k ≤ graceWindowEnd now grace interval ∧
        verifyHOTP hmacF key k digits otp = .ok true) ∧
    (verifyTOTPWithGracePeriod hmacF key now interval digits otp grace = .ok false ↔
      ∀ k, graceWindowStart now grace interval ≤ k →
        k ≤ graceWindowEnd now grace interval →
        verifyHOTP hmacF key k digits otp = .ok false) ∧
    (∀ N : Nat, N ≤ graceWindowSize now (N * interval) interval) := by
  have hrun : verifyTOTPWithGracePeriod hmacF key now interval digits otp grace =
      graceLoop hmacF key digits otp (graceWindowStart now grace interval)
        (graceWindowEnd now grace interval) := by
    rw [verifyTOTPWithGracePeriod, if_neg (by omega), if_neg (by omega)]
  refine ⟨graceWindow_start_le_end now grace interval hg hi, ?_, ?_, ?_⟩
  · rw [hrun]
    exact graceLoop_ok_true_iff hmacF key digits otp h6 h8 _ _
  · rw [hrun]
    exact graceLoop_ok_false_iff hmacF key digits otp h6 h8 _ _
  · exact graceWindowSize_grows now interval hi

theorem verifyTOTPWithGracePeriod_enumeration_witness :
    graceWindowStart 90000 60 30 ≤ graceWindowEnd 90000 60 30 :=
  (verifyTOTPWithGracePeriod_enumeration tHmac [] 90000 30 60 6
    [48, 48, 48, 48, 48, 50] (by omega) (by omega) (by omega) (by omega)).1

/-- C1 counterexample: with period 30 s, grace 60 s and the clock at
90000 ms, a candidate valid only at the intermediate counter 2 (the window
is [1, 5], the spec's three points are 1, 3 and 5) is accepted by
`verifyTOTPWithGracePeriod` but rejected by the spec's three-point
procedure, so the implementation does not check only those three counters
nor check the current counter first. -/
theorem verifyTOTPWithGracePeriod_not_three_point :
    verifyTOTPWithGracePeriod tHmac [] 90000 30 6 [48, 48, 48, 48, 48, 50] 60 =
      .ok true ∧
    threePointVerify tHmac [] 90000 30 6 [48, 48, 48, 48, 48, 50] 60 =
      .ok false := by
  constructor
  · rw [verifyTOTPWithGracePeriod, if_neg (by omega), if_neg (by omega),
      show graceWindowStart 90000 60 30 = 1 from rfl,
      show graceWindowEnd 90000 60 30 = 5 from rfl]
    exact (graceLoop_ok_true_iff tHmac [] 6 [48, 48, 48, 48, 48, 50]
      (by omega) (by omega) 1 5).mpr ⟨2, by omega, by omega, by rfl⟩
  · rfl

/-- C1 (amended): for every key, period > 0, digits in [6,8], candidate and
graceSeconds ≥ 0, `verifyTOTPWithGracePeriod` does not restrict itself to
the three counters (current, before, after): it walks the whole inclusive
window from the counter at `now - graceSeconds` up to the counter at
`now + graceSeconds` and accepts exactly when some counter in that window
verifies. -/
theorem verifyTOTPWithGracePeriod_window_iff
    (hmacF : List Nat → List Nat → List Nat) (key : List Nat)
    (now interval grace : Int) (digits : Nat) (otp : List Nat)
    (hg : 0 ≤ grace) (hi : 0 < interval)
    (h6 : 6 ≤ digits) (h8 : digits ≤ 8) :
    verifyTOTPWithGracePeriod hmacF key now interval digits otp grace = .ok true ↔
      ∃ k, graceWindowStart now grace interval ≤ k ∧
        k ≤ graceWindowEnd now grace interval ∧
        verifyHOTP hmacF key k digits otp = .ok true := by
  rw [verifyTOTPWithGracePeriod, if_neg (by omega), if_neg (by omega)]
  exact graceLoop_ok_true_iff hmacF key digits otp h6 h8 _ _

theorem verifyTOTPWithGracePeriod_window_iff_witness :
    verifyTOTPWithGracePeriod tHmac [] 150000 30 6 [48, 48, 48, 48, 48, 52] 60 =
      .ok true :=
  (verifyTOTPWithGracePeriod_window_iff tHmac [] 150000 30 60 6
    [48, 48, 48, 48, 48, 52] (by omega) (by omega) (by omega) (by omega)).mpr
    ⟨4, by decide, by decide, by rfl⟩

/-- C4 counterexample: with a negative period (-30 s) and valid digits,
`verifyTOTP` and `generateTOTP` do not fail at all — there is no
`InvalidPeriod` validation — and `verifyTOTP` even accepts the password
generated at the resulting counter. -/
theorem totp_no_period_validation_cex :
    verifyTOTP tHmac [] 0 (-30) 6 [48, 48, 48, 48, 48, 48] = .ok true ∧
    generateTOTP tHmac [] 0 (-30) 6 = .ok [48, 48, 48, 48, 48, 48] := by
  constructor
  · rfl
  · rfl

/-- C4 (amended): `generateTOTP` and `verifyTOTP` perform no validation of
`intervalInSeconds` whatsoever. For any nonzero period (negative included)
and valid digits, both silently proceed with the counter
`floor(now / (period*1000))` and return an ordinary result; a zero period
is not rejected as `InvalidPeriod` either but surfaces as the `RangeError`
thrown when the infinite quotient is converted to a `BigInt`. -/
theorem totp_period_unvalidated
    (hmacF : List Nat → List Nat → List Nat) (key : List Nat)
    (now interval : Int) (digits : Nat) (otp : List Nat)
    (hi : interval ≠ 0) (h6 : 6 ≤ digits) (h8 : digits ≤ 8) :
    generateTOTP hmacF key now interval digits =
      .ok (hotpPassword hmacF key (timeStepCounter now interval) digits) ∧
    verifyTOTP hmacF key now interval digits otp =
      verifyHOTP hmacF key (timeStepCounter now interval) digits otp ∧
    (∃ b, verifyTOTP hmacF key now interval digits otp = .ok b) ∧
    generateTOTP hmacF key now 0 digits =
      .error "RangeError: Cannot convert Infinity to a BigInt" ∧
    verifyTOTP hmacF key now 0 digits otp =
      .error "RangeError: Cannot convert Infinity to a BigInt" := by
  refine ⟨?_, ?_, ?_, ?_, ?_⟩
  · rw [generateTOTP, if_neg (by omega), if_neg hi, generateHOTP,
      if_neg (by omega)]
  · rw [verifyTOTP, if_neg hi]
  · rw [verifyTOTP, if_neg hi]
    exact verifyHOTP_exists_ok hmacF key _ digits otp h6 h8
  · rw [generateTOTP, if_neg (by omega), if_pos rfl]
  · rw [verifyTOTP, if_pos rfl]

theorem totp_period_unvalidated_witness :
    generateTOTP tHmac [] 0 (-30) 6 =
      .ok (hotpPassword tHmac [] (timeStepCounter 0 (-30)) 6) :=
  (totp_period_unvalidated tHmac [] 0 (-30) 6 [48, 48, 48, 48, 48, 48]
    (by omega) (by omega) (by omega)).1

end Otp
